import Mathlib

/-!
Shallow embedding of the ghost-mesh native BLE mock adapter: the
registry-based implementation in `src/native-ble/cpp/platform/macos/ble_adapter.cc`
together with the process-wide registry defined in
`src/native-ble/cpp/ble_adapter_registry.cc` and declared in
`src/native-ble/cpp/ble_adapter.h`.

Modelling conventions:

* An adapter object is a record of the mutable fields `adapterId_`, `state_`,
  `advertising_`, `scanning_`, `manufacturerData_`, `listeners_`.
* The C++ heap is a finite association list from object references (`Nat`,
  standing for the `BLEAdapter *` pointer) to adapter records; the static
  registry `adapters_` is an association list from id strings to references
  (`std::unordered_map` key uniqueness is assumed as a hypothesis where a
  proof needs it).  A `World` bundles both.
* A `Napi::Reference` on which `IsEmpty()` holds is modelled as `none`;
  `Reset()` sets it to `none`, `Persistent(v)` to `some v`.  Manufacturer
  data values are byte lists.
* Every method is a pure function from a `World` and the `this` reference to
  the successor `World`, the ordered list of `EmitEvent` occurrences it
  performs (an `Emission` records the adapter the event is raised on, the
  event name, and the argument values), and a result, where `Except.error`
  models a thrown JavaScript exception.  Delivery of an emission to
  subscribers is the pointwise application of the target's `listeners_`
  entry and carries no extra information, so the claims are stated on the
  emission trace; the one direct callback invocation performed by `On` for
  `stateChange` is returned by `On` itself.
* `unordered_map` iteration order is unspecified in C++; the model fixes it
  to the association-list order, a sound determinization for the properties
  below, which are stated order-insensitively across adapters.
-/

abbrev Payload := List Nat

inductive AdapterState
| unknown
| poweredOn
| poweredOff
deriving DecidableEq

structure DiscoveredDevice where
  address : String
  manufacturerData : Option Payload
deriving DecidableEq

inductive EventArg
| str (s : String)
| payload (p : Payload)
| device (d : DiscoveredDevice)
deriving DecidableEq

structure Emission where
  target : Nat
  event : String
  args : List EventArg
deriving DecidableEq

structure Adapter where
  adapterId : String
  state : AdapterState
  advertising : Bool
  scanning : Bool
  manufacturerData : Option Payload
  listeners : List (String × List Nat)
deriving DecidableEq

structure World where
  heap : List (Nat × Adapter)
  registry : List (String × Nat)
deriving DecidableEq

inductive BLEError
| invalidState
| alreadyActive
| simulatedError
| typeError
deriving DecidableEq

/-- Dereference an adapter pointer (first heap entry with that reference). -/
def lookupHeap : List (Nat × Adapter) → Nat → Option Adapter
| [], _ => none
| (r', a) :: rest, r => if r' = r then some a else lookupHeap rest r

/-- Write through an adapter pointer. -/
def updateHeap (h : List (Nat × Adapter)) (r : Nat) (a : Adapter) :
    List (Nat × Adapter) :=
  h.map (fun p => if p.1 = r then (r, a) else p)

/-- Registry `find`: first entry with the given id. -/
def lookupReg : List (String × Nat) → String → Option Nat
| [], _ => none
| (id', r) :: rest, id => if id' = id then some r else lookupReg rest id

/-- Registry `adapters_[id] = this`: overwrite the entry for `id` or append. -/
def registryInsert : List (String × Nat) → String → Nat → List (String × Nat)
| [], id, r => [(id, r)]
| (id', r') :: rest, id, r =>
  if id' = id then (id, r) :: rest else (id', r') :: registryInsert rest id r

/-- Registry `find` followed by `erase` guarded by `it->second == this`
(`BLEAdapter::~BLEAdapter` and `BLEAdapter::Destroy`). -/
def registryErase : List (String × Nat) → String → Nat → List (String × Nat)
| [], _, _ => []
| (id', r') :: rest, id, r =>
  if id' = id then (if r' = r then rest else (id', r') :: rest)
  else (id', r') :: registryErase rest id r

/-- `listeners_[event].push_back(callback)`. -/
def pushListener : List (String × List Nat) → String → Nat → List (String × List Nat)
| [], ev, cb => [(ev, [cb])]
| (e, cbs) :: rest, ev, cb =>
  if e = ev then (e, cbs ++ [cb]) :: rest else (e, cbs) :: pushListener rest ev cb

namespace BLEAdapter

/-- The string tag returned by `GetState` for each `State` value. -/
def stateString : AdapterState → String
| AdapterState.poweredOn => "poweredOn"
| AdapterState.poweredOff => "poweredOff"
| AdapterState.unknown => "unknown"

/-- `BLEAdapter::BLEAdapter` (macOS copy): take `adapterId` from the options
when present and non-empty, otherwise derive it from the object's own
address, then register `adapters_[adapterId_] = this`. -/
def construct (w : World) (ref : Nat) (requestedId : Option String) : World :=
  let id0 := match requestedId with
    | some s => s
    | none => ""
  let id := if id0 = "" then toString ref else id0
  ⟨(ref, { adapterId := id, state := AdapterState.poweredOn, advertising := false,
           scanning := false, manufacturerData := none, listeners := [] }) :: w.heap,
   registryInsert w.registry id ref⟩

/-- `BLEAdapter::On` (macOS copy): append the callback to
`listeners_[event]`; when the event is `stateChange`, immediately invoke the
freshly added callback once with the current state string
(`state_ == State::PoweredOn ? "poweredOn" : "poweredOff"`).  The second
component lists the direct callback invocations performed before returning. -/
def On (w : World) (this : Nat) (event : String) (callback : Nat) :
    World × List (Nat × List EventArg) :=
  match lookupHeap w.heap this with
  | none => (w, [])
  | some a =>
    let a1 := { a with listeners := pushListener a.listeners event callback }
    let invoked :=
      if event = "stateChange" then
        [(callback,
          [EventArg.str
            (if a.state = AdapterState.poweredOn then "poweredOn" else "poweredOff")])]
      else []
    (⟨updateHeap w.heap this a1, w.registry⟩, invoked)

/-- Per-adapter state mutation of `BLEAdapter::HandlePowerStateChange`: the
branches compare `newState` against the strings "poweredOff" / "poweredOn". -/
def powerAdapter (newState : String) (a : Adapter) : Adapter :=
  if newState = "poweredOff" then
    { a with state := AdapterState.poweredOff, advertising := false,
             scanning := false, manufacturerData := none }
  else if newState = "poweredOn" then { a with state := AdapterState.poweredOn }
  else a

/-- Per-adapter emissions of `BLEAdapter::HandlePowerStateChange`: in the
"poweredOff" branch `advertisingStopped` and `scanningStopped` are emitted
unconditionally, then `stateChange` carrying `newState` is emitted for every
adapter regardless of branch. -/
def powerEmissions (newState : String) (r : Nat) : List Emission :=
  (if newState = "poweredOff" then
     [⟨r, "advertisingStopped", []⟩, ⟨r, "scanningStopped", []⟩]
   else []) ++ [⟨r, "stateChange", [EventArg.str newState]⟩]

/-- `BLEAdapter::HandlePowerStateChange` (macOS copy): iterate over every
registry entry, mutate each registered adapter through its pointer and emit
its events in turn. -/
def HandlePowerStateChange (newState : String) (w : World) :
    World × List Emission :=
  w.registry.foldl
    (fun acc e =>
      match lookupHeap acc.1.heap e.2 with
      | none => acc
      | some a =>
        (⟨updateHeap acc.1.heap e.2 (powerAdapter newState a), acc.1.registry⟩,
         acc.2 ++ powerEmissions newState e.2))
    (w, [])

/-- `BLEAdapter::GetState` (macOS copy): the string argument "error" throws a
simulated error; "powerOff" / "powerOn" run `HandlePowerStateChange` with
that very string; afterwards the current state tag of `this` is returned. -/
def GetState (w : World) (this : Nat) (arg : Option String) :
    World × List Emission × Except BLEError String :=
  match arg with
  | some s =>
    if s = "error" then (w, [], Except.error BLEError.simulatedError)
    else
      let step :=
        if s = "powerOff" ∨ s = "powerOn" then HandlePowerStateChange s w
        else (w, [])
      match lookupHeap step.1.heap this with
      | some a1 => (step.1, step.2, Except.ok (stateString a1.state))
      | none => (step.1, step.2, Except.error BLEError.typeError)
  | none =>
    match lookupHeap w.heap this with
    | some a => (w, [], Except.ok (stateString a.state))
    | none => (w, [], Except.error BLEError.typeError)

/-- Broadcast loop shared by `StartAdvertising` and `UpdateAdvertisingData`:
for every registry entry whose adapter is a different object and is
scanning, emit `deviceDiscovered` on it with the given device record. -/
def scanBroadcast (w : World) (this : Nat) (dev : DiscoveredDevice) :
    List Emission :=
  w.registry.filterMap (fun e =>
    match lookupHeap w.heap e.2 with
    | none => none
    | some o =>
      if e.2 ≠ this ∧ o.scanning = true then
        some ⟨e.2, "deviceDiscovered", [EventArg.device dev]⟩
      else none)

/-- `BLEAdapter::StartAdvertising` (macOS copy).  Validation: powered on,
not already advertising.  The options either carry `manufacturerData`
(`some p`) or not (`none`); when they do not, the macOS copy has no `else`
branch resetting `manufacturerData_`, so the stored reference is kept.  The
device record sent to scanning peers carries `manufacturerData` only when
the stored reference is non-empty. -/
def StartAdvertising (w : World) (this : Nat) (manufacturerData : Option Payload) :
    World × List Emission × Except BLEError Unit :=
  match lookupHeap w.heap this with
  | none => (w, [], Except.error BLEError.typeError)
  | some a =>
    if a.state ≠ AdapterState.poweredOn then (w, [], Except.error BLEError.invalidState)
    else if a.advertising then (w, [], Except.error BLEError.alreadyActive)
    else
      let md := match manufacturerData with
        | some p => some p
        | none => a.manufacturerData
      let a1 := { a with manufacturerData := md, advertising := true }
      let w1 : World := ⟨updateHeap w.heap this a1, w.registry⟩
      (w1,
        Emission.mk this "advertisingStarted" [] ::
          scanBroadcast w1 this ⟨a.adapterId, md⟩,
        Except.ok ())

/-- `BLEAdapter::UpdateAdvertisingData` (macOS copy).  Validation: currently
advertising.  Stores the payload, emits `advertisingDataUpdated` with it,
then notifies every other scanning registered adapter with a device record
that always carries the new payload. -/
def UpdateAdvertisingData (w : World) (this : Nat) (data : Payload) :
    World × List Emission × Except BLEError Unit :=
  match lookupHeap w.heap this with
  | none => (w, [], Except.error BLEError.typeError)
  | some a =>
    if a.advertising = false then (w, [], Except.error BLEError.invalidState)
    else
      let a1 := { a with manufacturerData := some data }
      let w1 : World := ⟨updateHeap w.heap this a1, w.registry⟩
      (w1,
        Emission.mk this "advertisingDataUpdated" [EventArg.payload data] ::
          scanBroadcast w1 this ⟨a.adapterId, some data⟩,
        Except.ok ())

/-- `BLEAdapter::StopAdvertising` (macOS copy): no validation at all; clears
the flag and the payload reference and emits `advertisingStopped`. -/
def StopAdvertising (w : World) (this : Nat) :
    World × List Emission × Except BLEError Unit :=
  match lookupHeap w.heap this with
  | none => (w, [], Except.error BLEError.typeError)
  | some a =>
    let a1 := { a with advertising := false, manufacturerData := none }
    (⟨updateHeap w.heap this a1, w.registry⟩,
     [Emission.mk this "advertisingStopped" []], Except.ok ())

/-- Discovery loop of `StartScanning`: for every registry entry whose adapter
is a different object, is advertising and holds a non-empty payload, emit
`deviceDiscovered` on the caller with that adapter's identity and payload. -/
def discoverAdvertisers (w : World) (this : Nat) : List Emission :=
  w.registry.filterMap (fun e =>
    match lookupHeap w.heap e.2 with
    | none => none
    | some o =>
      if e.2 ≠ this ∧ o.advertising = true ∧ o.manufacturerData.isSome = true then
        some ⟨this, "deviceDiscovered",
              [EventArg.device ⟨o.adapterId, o.manufacturerData⟩]⟩
      else none)

/-- `BLEAdapter::StartScanning` (macOS copy).  Validation: powered on, not
already scanning.  Sets the flag, emits `scanningStarted`, discovers every
advertising registered peer with non-empty payload, and when none was found
emits one simulated discovery whose address is the own id suffixed "-sim". -/
def StartScanning (w : World) (this : Nat) :
    World × List Emission × Except BLEError Unit :=
  match lookupHeap w.heap this with
  | none => (w, [], Except.error BLEError.typeError)
  | some a =>
    if a.state ≠ AdapterState.poweredOn then (w, [], Except.error BLEError.invalidState)
    else if a.scanning then (w, [], Except.error BLEError.alreadyActive)
    else
      let a1 := { a with scanning := true }
      let w1 : World := ⟨updateHeap w.heap this a1, w.registry⟩
      let found := discoverAdvertisers w1 this
      (w1,
        Emission.mk this "scanningStarted" [] ::
          (if found = [] then
             [Emission.mk this "deviceDiscovered"
               [EventArg.device ⟨a.adapterId ++ "-sim", none⟩]]
           else found),
        Except.ok ())

/-- `BLEAdapter::StopScanning` (macOS copy): no validation; clears the flag
and emits `scanningStopped`. -/
def StopScanning (w : World) (this : Nat) :
    World × List Emission × Except BLEError Unit :=
  match lookupHeap w.heap this with
  | none => (w, [], Except.error BLEError.typeError)
  | some a =>
    (⟨updateHeap w.heap this { a with scanning := false }, w.registry⟩,
     [Emission.mk this "scanningStopped" []], Except.ok ())

/-- `BLEAdapter::Destroy` (macOS copy): clear both flags, the payload
reference and all listeners, then remove the registry entry for
`adapterId_`, but only when it is present and still points to this object;
emits nothing. -/
def Destroy (w : World) (this : Nat) :
    World × List Emission × Except BLEError Unit :=
  match lookupHeap w.heap this with
  | none => (w, [], Except.ok ())
  | some a =>
    let a1 := { a with advertising := false, scanning := false,
                       manufacturerData := none, listeners := [] }
    let reg := if a.adapterId = "" then w.registry
               else registryErase w.registry a.adapterId this
    (⟨updateHeap w.heap this a1, reg⟩, [], Except.ok ())

/-- `BLEAdapter::IsAdvertisingActive`. -/
def IsAdvertisingActive (w : World) (this : Nat) : Option Bool :=
  (lookupHeap w.heap this).map Adapter.advertising

/-- `BLEAdapter::IsScanningActive`. -/
def IsScanningActive (w : World) (this : Nat) : Option Bool :=
  (lookupHeap w.heap this).map Adapter.scanning

end BLEAdapter

/-- A registry entry other than the caller whose adapter is currently
scanning: the recipients of the broadcasts in `StartAdvertising` and
`UpdateAdvertisingData`. -/
def scanningPeer (w : World) (this : Nat) (e : String × Nat) : Prop :=
  e.2 ≠ this ∧ ∃ o, lookupHeap w.heap e.2 = some o ∧ o.scanning = true

/-- A registry entry other than the caller whose adapter is advertising with
a non-empty payload: the peers `StartScanning` discovers. -/
def advertisingPeer (w : World) (this : Nat) (e : String × Nat) : Prop :=
  e.2 ≠ this ∧ ∃ o, lookupHeap w.heap e.2 = some o ∧
    o.advertising = true ∧ o.manufacturerData.isSome = true

/-- The `deviceDiscovered` emission `StartScanning` raises on the caller for
the registry entry `e`: it carries that peer's identity and payload. -/
def peerDiscoveryEmission (w : World) (this : Nat) (e : String × Nat)
    (em : Emission) : Prop :=
  ∃ o, lookupHeap w.heap e.2 = some o ∧
    em = Emission.mk this "deviceDiscovered"
      [EventArg.device ⟨o.adapterId, o.manufacturerData⟩]

/-- The payload-hygiene invariant: an adapter that is not advertising holds
no manufacturer payload. -/
def payloadClean (a : Adapter) : Prop :=
  a.advertising = false → a.manufacturerData = none

/-- `payloadClean` for every live adapter object. -/
def WorldInv (w : World) : Prop :=
  ∀ p ∈ w.heap, payloadClean p.2

instance (a : Adapter) : Decidable (payloadClean a) := by
  unfold payloadClean
  infer_instance

instance (w : World) : Decidable (WorldInv w) := by
  unfold WorldInv
  infer_instance

/-- One public operation of the registry-based adapter, as a relation on
worlds.  Every method of the macOS implementation appears, at arbitrary
receiver and arguments. -/
inductive Step : World → World → Prop
| construct (w : World) (ref : Nat) (id : Option String) :
    Step w (BLEAdapter.construct w ref id)
| onEvent (w : World) (this : Nat) (ev : String) (cb : Nat) :
    Step w (BLEAdapter.On w this ev cb).1
| getState (w : World) (this : Nat) (arg : Option String) :
    Step w (BLEAdapter.GetState w this arg).1
| startAdvertising (w : World) (this : Nat) (md : Option Payload) :
    Step w (BLEAdapter.StartAdvertising w this md).1
| updateAdvertisingData (w : World) (this : Nat) (p : Payload) :
    Step w (BLEAdapter.UpdateAdvertisingData w this p).1
| stopAdvertising (w : World) (this : Nat) :
    Step w (BLEAdapter.StopAdvertising w this).1
| startScanning (w : World) (this : Nat) :
    Step w (BLEAdapter.StartScanning w this).1
| stopScanning (w : World) (this : Nat) :
    Step w (BLEAdapter.StopScanning w this).1
| destroy (w : World) (this : Nat) :
    Step w (BLEAdapter.Destroy w this).1

/-- A powered-on adapter record used by the concrete example worlds. -/
def mkAdapter (id : String) (adv scan : Bool) (md : Option Payload) : Adapter :=
  { adapterId := id, state := AdapterState.poweredOn, advertising := adv,
    scanning := scan, manufacturerData := md, listeners := [] }

/-- Example world: adapter 1 ("A") idle; adapter 2 ("B") advertising with
payload `[1, 2]`. -/
def wScanDemo : World :=
  ⟨[(1, mkAdapter "A" false false none), (2, mkAdapter "B" true false (some [1, 2]))],
   [("A", 1), ("B", 2)]⟩

/-- Example world: adapter 1 ("A") idle; adapter 2 ("B") scanning. -/
def wAdvDemo : World :=
  ⟨[(1, mkAdapter "A" false false none), (2, mkAdapter "B" false true none)],
   [("A", 1), ("B", 2)]⟩

/-- Example world: adapter 1 ("A") advertising with payload `[3]`;
adapter 2 ("B") scanning. -/
def wUpdDemo : World :=
  ⟨[(1, mkAdapter "A" true false (some [3])), (2, mkAdapter "B" false true none)],
   [("A", 1), ("B", 2)]⟩

/-- Example world for the power-directive evaluation: one registered
adapter, powered on, advertising and scanning, holding payload `[1, 2]` and
a `stateChange` subscriber. -/
def wPowerDemo : World :=
  ⟨[(1, { adapterId := "A", state := AdapterState.poweredOn, advertising := true,
          scanning := true, manufacturerData := some [1, 2],
          listeners := [("stateChange", [7])] })],
   [("A", 1)]⟩

/-- Example world: one registered adapter that is not advertising but has an
`advertisingStopped` subscriber. -/
def wStopDemo : World :=
  ⟨[(1, { adapterId := "A", state := AdapterState.poweredOn, advertising := false,
          scanning := false, manufacturerData := none,
          listeners := [("advertisingStopped", [3])] })],
   [("A", 1)]⟩

/-- Example world: one powered-off adapter. -/
def wOffDemo : World :=
  ⟨[(1, { adapterId := "A", state := AdapterState.poweredOff, advertising := false,
          scanning := false, manufacturerData := none, listeners := [] })],
   [("A", 1)]⟩

/-- Example world: one advertising adapter with listeners and payload. -/
def wDestroyDemo : World :=
  ⟨[(1, { adapterId := "A", state := AdapterState.poweredOn, advertising := true,
          scanning := true, manufacturerData := some [5],
          listeners := [("deviceDiscovered", [4])] })],
   [("A", 1)]⟩

/-! ### Heap and registry lemmas -/

theorem updateHeap_cons (p : Nat × Adapter) (rest : List (Nat × Adapter))
    (r : Nat) (a : Adapter) :
    updateHeap (p :: rest) r a =
      (if p.1 = r then (r, a) else p) :: updateHeap rest r a := rfl

theorem lookupHeap_updateHeap_self {h : List (Nat × Adapter)} {r : Nat}
    {a a' : Adapter} (hl : lookupHeap h r = some a) :
    lookupHeap (updateHeap h r a') r = some a' := by
  induction h with
  | nil => simp [lookupHeap] at hl
  | cons p rest ih =>
    obtain ⟨q, b⟩ := p
    rw [updateHeap_cons]
    by_cases hq : q = r
    · subst hq
      rw [if_pos rfl]
      simp [lookupHeap]
    · rw [if_neg hq]
      have hl' : lookupHeap rest r = some a := by simpa [lookupHeap, hq] using hl
      simpa [lookupHeap, hq] using ih hl'

theorem lookupHeap_updateHeap_ne {h : List (Nat × Adapter)} {r r' : Nat}
    {a : Adapter} (hne : r' ≠ r) :
    lookupHeap (updateHeap h r a) r' = lookupHeap h r' := by
  induction h with
  | nil => rfl
  | cons p rest ih =>
    obtain ⟨q, b⟩ := p
    rw [updateHeap_cons]
    by_cases hq : q = r
    · subst hq
      rw [if_pos rfl]
      simp [lookupHeap, Ne.symm hne, ih]
    · rw [if_neg hq]
      by_cases hq' : q = r'
      · simp [lookupHeap, hq']
      · simp [lookupHeap, hq', ih]

theorem updateHeap_updateHeap (h : List (Nat × Adapter)) (r : Nat)
    (a a' : Adapter) :
    updateHeap (updateHeap h r a) r a' = updateHeap h r a' := by
  induction h with
  | nil => rfl
  | cons p rest ih =>
    obtain ⟨q, b⟩ := p
    by_cases hq : q = r
    · simp [updateHeap_cons, hq, ih]
    · simp [updateHeap_cons, hq, ih]

theorem lookupReg_eq_none_of_not_mem {reg : List (String × Nat)} {id : String}
    (h : id ∉ reg.map Prod.fst) : lookupReg reg id = none := by
  induction reg with
  | nil => rfl
  | cons p rest ih =>
    obtain ⟨q, v⟩ := p
    simp only [List.map_cons, List.mem_cons, not_or] at h
    have hq : q ≠ id := fun he => h.1 he.symm
    simp [lookupReg, hq, ih h.2]

theorem registryErase_of_lookup_none {reg : List (String × Nat)} {id : String}
    {r : Nat} (h : lookupReg reg id = none) : registryErase reg id r = reg := by
  induction reg with
  | nil => rfl
  | cons p rest ih =>
    obtain ⟨q, v⟩ := p
    by_cases hq : q = id
    · simp [lookupReg, hq] at h
    · have h' : lookupReg rest id = none := by simpa [lookupReg, hq] using h
      simp [registryErase, hq, ih h']

theorem registryErase_of_lookup_ne {reg : List (String × Nat)} {id : String}
    {r r' : Nat} (h : lookupReg reg id = some r') (hne : r' ≠ r) :
    registryErase reg id r = reg := by
  induction reg with
  | nil => rfl
  | cons p rest ih =>
    obtain ⟨q, v⟩ := p
    by_cases hq : q = id
    · have hv : v = r' := by simpa [lookupReg, hq] using h
      subst hv
      simp [registryErase, hq, hne]
    · have h' : lookupReg rest id = some r' := by simpa [lookupReg, hq] using h
      simp [registryErase, hq, ih h']

theorem lookupReg_registryErase_self {reg : List (String × Nat)} {id : String}
    {r : Nat} (hnd : (reg.map Prod.fst).Nodup) (h : lookupReg reg id = some r) :
    lookupReg (registryErase reg id r) id = none := by
  induction reg with
  | nil => simp [lookupReg] at h
  | cons p rest ih =>
    obtain ⟨q, v⟩ := p
    simp only [List.map_cons, List.nodup_cons] at hnd
    by_cases hq : q = id
    · have hv : v = r := by simpa [lookupReg, hq] using h
      subst hv
      subst hq
      simp only [registryErase, if_pos rfl]
      exact lookupReg_eq_none_of_not_mem hnd.1
    · have h' : lookupReg rest id = some r := by simpa [lookupReg, hq] using h
      simp [registryErase, hq, lookupReg, ih hnd.2 h']

/-! ### Broadcast characterizations -/

theorem mem_scanBroadcast {w : World} {this : Nat} {dev : DiscoveredDevice}
    {em : Emission} :
    em ∈ BLEAdapter.scanBroadcast w this dev ↔
      ∃ e ∈ w.registry, scanningPeer w this e ∧
        em = Emission.mk e.2 "deviceDiscovered" [EventArg.device dev] := by
  unfold BLEAdapter.scanBroadcast
  rw [List.mem_filterMap]
  constructor
  · rintro ⟨e, he, hsome⟩
    refine ⟨e, he, ?_⟩
    rcases hl : lookupHeap w.heap e.2 with _ | o
    · simp only [hl] at hsome
      exact Option.noConfusion hsome
    · simp only [hl] at hsome
      by_cases hc : e.2 ≠ this ∧ o.scanning = true
      · rw [if_pos hc] at hsome
        exact ⟨⟨hc.1, o, hl, hc.2⟩, (Option.some.inj hsome).symm⟩
      · rw [if_neg hc] at hsome
        exact absurd hsome (by simp)
  · rintro ⟨e, he, ⟨hne, o, hl, hs⟩, hem⟩
    refine ⟨e, he, ?_⟩
    simp only [hl]
    rw [if_pos ⟨hne, hs⟩, hem]

theorem mem_discoverAdvertisers {w : World} {this : Nat} {em : Emission} :
    em ∈ BLEAdapter.discoverAdvertisers w this ↔
      ∃ e ∈ w.registry, e.2 ≠ this ∧ ∃ o, lookupHeap w.heap e.2 = some o ∧
        o.advertising = true ∧ o.manufacturerData.isSome = true ∧
        em = Emission.mk this "deviceDiscovered"
          [EventArg.device ⟨o.adapterId, o.manufacturerData⟩] := by
  unfold BLEAdapter.discoverAdvertisers
  rw [List.mem_filterMap]
  constructor
  · rintro ⟨e, he, hsome⟩
    rcases hl : lookupHeap w.heap e.2 with _ | o
    · simp only [hl] at hsome
      exact Option.noConfusion hsome
    · simp only [hl] at hsome
      by_cases hc : e.2 ≠ this ∧ o.advertising = true ∧ o.manufacturerData.isSome = true
      · rw [if_pos hc] at hsome
        exact ⟨e, he, hc.1, o, hl, hc.2.1, hc.2.2, (Option.some.inj hsome).symm⟩
      · rw [if_neg hc] at hsome
        exact absurd hsome (by simp)
  · rintro ⟨e, he, hne, o, hl, hadv, hmd, hem⟩
    refine ⟨e, he, ?_⟩
    simp only [hl]
    rw [if_pos ⟨hne, hadv, hmd⟩, hem]

/-! ### Shape lemmas for the operations -/

theorem StartScanning_eq_of_ok (w : World) (this : Nat) (a : Adapter)
    (ha : lookupHeap w.heap this = some a)
    (hpow : a.state = AdapterState.poweredOn)
    (hns : a.scanning = false) :
    BLEAdapter.StartScanning w this =
      (⟨updateHeap w.heap this { a with scanning := true }, w.registry⟩,
       Emission.mk this "scanningStarted" [] ::
         (if BLEAdapter.discoverAdvertisers
              ⟨updateHeap w.heap this { a with scanning := true }, w.registry⟩ this = []
          then [Emission.mk this "deviceDiscovered"
                 [EventArg.device ⟨a.adapterId ++ "-sim", none⟩]]
          else BLEAdapter.discoverAdvertisers
                 ⟨updateHeap w.heap this { a with scanning := true }, w.registry⟩ this),
       Except.ok ()) := by
  unfold BLEAdapter.StartScanning
  rw [ha]
  dsimp only
  rw [if_neg (by rw [hpow]; exact fun h => h rfl),
      if_neg (by rw [hns]; exact Bool.false_ne_true)]

theorem StartAdvertising_eq_of_ok (w : World) (this : Nat) (a : Adapter)
    (md : Option Payload)
    (ha : lookupHeap w.heap this = some a)
    (hpow : a.state = AdapterState.poweredOn)
    (hna : a.advertising = false)
    (hclean : a.manufacturerData = none) :
    BLEAdapter.StartAdvertising w this md =
      (⟨updateHeap w.heap this { a with manufacturerData := md, advertising := true },
        w.registry⟩,
       Emission.mk this "advertisingStarted" [] ::
         BLEAdapter.scanBroadcast
           ⟨updateHeap w.heap this { a with manufacturerData := md, advertising := true },
            w.registry⟩ this ⟨a.adapterId, md⟩,
       Except.ok ()) := by
  unfold BLEAdapter.StartAdvertising
  rw [ha]
  dsimp only
  rw [if_neg (by rw [hpow]; exact fun h => h rfl),
      if_neg (by rw [hna]; exact Bool.false_ne_true)]
  cases md with
  | none => rw [hclean]
  | some p => rfl

theorem StartAdvertising_eq_of_notPoweredOn (w : World) (this : Nat) (a : Adapter)
    (md : Option Payload)
    (ha : lookupHeap w.heap this = some a)
    (hpow : a.state ≠ AdapterState.poweredOn) :
    BLEAdapter.StartAdvertising w this md =
      (w, [], Except.error BLEError.invalidState) := by
  unfold BLEAdapter.StartAdvertising
  rw [ha]
  dsimp only
  rw [if_pos hpow]

theorem StartAdvertising_eq_of_alreadyActive (w : World) (this : Nat) (a : Adapter)
    (md : Option Payload)
    (ha : lookupHeap w.heap this = some a)
    (hpow : a.state = AdapterState.poweredOn)
    (hadv : a.advertising = true) :
    BLEAdapter.StartAdvertising w this md =
      (w, [], Except.error BLEError.alreadyActive) := by
  unfold BLEAdapter.StartAdvertising
  rw [ha]
  dsimp only
  rw [if_neg (by rw [hpow]; exact fun h => h rfl), if_pos hadv]

theorem UpdateAdvertisingData_eq_of_ok (w : World) (this : Nat) (a : Adapter)
    (p : Payload)
    (ha : lookupHeap w.heap this = some a)
    (hadv : a.advertising = true) :
    BLEAdapter.UpdateAdvertisingData w this p =
      (⟨updateHeap w.heap this { a with manufacturerData := some p }, w.registry⟩,
       Emission.mk this "advertisingDataUpdated" [EventArg.payload p] ::
         BLEAdapter.scanBroadcast
           ⟨updateHeap w.heap this { a with manufacturerData := some p }, w.registry⟩
           this ⟨a.adapterId, some p⟩,
       Except.ok ()) := by
  unfold BLEAdapter.UpdateAdvertisingData
  rw [ha]
  dsimp only
  rw [if_neg (by rw [hadv]; exact fun h => Bool.noConfusion h)]

theorem UpdateAdvertisingData_eq_of_notAdvertising (w : World) (this : Nat)
    (a : Adapter) (p : Payload)
    (ha : lookupHeap w.heap this = some a)
    (hna : a.advertising = false) :
    BLEAdapter.UpdateAdvertisingData w this p =
      (w, [], Except.error BLEError.invalidState) := by
  unfold BLEAdapter.UpdateAdvertisingData
  rw [ha]
  dsimp only
  rw [if_pos hna]

theorem StopAdvertising_eq (w : World) (this : Nat) (a : Adapter)
    (ha : lookupHeap w.heap this = some a) :
    BLEAdapter.StopAdvertising w this =
      (⟨updateHeap w.heap this
          { a with advertising := false, manufacturerData := none }, w.registry⟩,
       [Emission.mk this "advertisingStopped" []], Except.ok ()) := by
  unfold BLEAdapter.StopAdvertising
  rw [ha]

theorem On_eq (w : World) (this : Nat) (ev : String) (cb : Nat) (a : Adapter)
    (ha : lookupHeap w.heap this = some a) :
    BLEAdapter.On w this ev cb =
      (⟨updateHeap w.heap this
          { a with listeners := pushListener a.listeners ev cb }, w.registry⟩,
       if ev = "stateChange" then
         [(cb, [EventArg.str
           (if a.state = AdapterState.poweredOn then "poweredOn" else "poweredOff")])]
       else []) := by
  unfold BLEAdapter.On
  rw [ha]

theorem Destroy_eq (w : World) (this : Nat) (a : Adapter)
    (ha : lookupHeap w.heap this = some a) :
    BLEAdapter.Destroy w this =
      (⟨updateHeap w.heap this
          { a with advertising := false, scanning := false,
                   manufacturerData := none, listeners := [] },
        if a.adapterId = "" then w.registry
        else registryErase w.registry a.adapterId this⟩,
       [], Except.ok ()) := by
  unfold BLEAdapter.Destroy
  rw [ha]

theorem GetState_none_eq (w : World) (this : Nat) (a : Adapter)
    (ha : lookupHeap w.heap this = some a) :
    BLEAdapter.GetState w this none =
      (w, [], Except.ok (BLEAdapter.stateString a.state)) := by
  unfold BLEAdapter.GetState
  rw [ha]

/-! ### C1: StartScanning discovery semantics -/

/-- C1: for every adapter that is PoweredOn and not already scanning,
`startScanning` succeeds, sets the scanning flag, first emits
`scanningStarted`, then emits to the caller one `deviceDiscovered` event
carrying the peer's identity and payload for every other registered adapter
that is advertising and holds a non-empty payload; and when no such peer
exists the tail is exactly one synthetic `deviceDiscovered` event whose
placeholder address is the caller's own id with the distinguishing suffix
"-sim". -/
theorem startScanning_discovers_peers (w : World) (this : Nat) (a : Adapter)
    (ha : lookupHeap w.heap this = some a)
    (hpow : a.state = AdapterState.poweredOn)
    (hns : a.scanning = false) :
    (BLEAdapter.StartScanning w this).2.2 = Except.ok () ∧
    lookupHeap (BLEAdapter.StartScanning w this).1.heap this =
      some { a with scanning := true } ∧
    ∃ tail, (BLEAdapter.StartScanning w this).2.1 =
        Emission.mk this "scanningStarted" [] :: tail ∧
      (∀ e ∈ w.registry, advertisingPeer w this e →
        ∃ em ∈ tail, peerDiscoveryEmission w this e em) ∧
      ((∃ e ∈ w.registry, advertisingPeer w this e) →
        ∀ em ∈ tail, ∃ e ∈ w.registry, advertisingPeer w this e ∧
          peerDiscoveryEmission w this e em) ∧
      ((¬ ∃ e ∈ w.registry, advertisingPeer w this e) →
        tail = [Emission.mk this "deviceDiscovered"
          [EventArg.device ⟨a.adapterId ++ "-sim", none⟩]]) := by
  rw [StartScanning_eq_of_ok w this a ha hpow hns]
  refine ⟨rfl, lookupHeap_updateHeap_self ha, _, rfl, ?_, ?_, ?_⟩
  · intro e he hq
    obtain ⟨hne, o, hlw, hadv, hmd⟩ := hq
    have hl1 : lookupHeap
        (updateHeap w.heap this { a with scanning := true }) e.2 = some o := by
      rw [lookupHeap_updateHeap_ne hne]
      exact hlw
    have hmemF : Emission.mk this "deviceDiscovered"
        [EventArg.device ⟨o.adapterId, o.manufacturerData⟩] ∈
        BLEAdapter.discoverAdvertisers
          ⟨updateHeap w.heap this { a with scanning := true }, w.registry⟩ this := by
      rw [mem_discoverAdvertisers]
      exact ⟨e, he, hne, o, hl1, hadv, hmd, rfl⟩
    rw [if_neg (List.ne_nil_of_mem hmemF)]
    exact ⟨_, hmemF, o, hlw, rfl⟩
  · rintro ⟨e0, he0, hne0, o0, hlw0, hadv0, hmd0⟩ em hem
    have hl10 : lookupHeap
        (updateHeap w.heap this { a with scanning := true }) e0.2 = some o0 := by
      rw [lookupHeap_updateHeap_ne hne0]
      exact hlw0
    have hmem0 : Emission.mk this "deviceDiscovered"
        [EventArg.device ⟨o0.adapterId, o0.manufacturerData⟩] ∈
        BLEAdapter.discoverAdvertisers
          ⟨updateHeap w.heap this { a with scanning := true }, w.registry⟩ this := by
      rw [mem_discoverAdvertisers]
      exact ⟨e0, he0, hne0, o0, hl10, hadv0, hmd0, rfl⟩
    rw [if_neg (List.ne_nil_of_mem hmem0)] at hem
    obtain ⟨e, he, hne, o, hl1, hadv, hmd, hemEq⟩ :=
      mem_discoverAdvertisers.mp hem
    have hlw : lookupHeap w.heap e.2 = some o := by
      rwa [lookupHeap_updateHeap_ne hne] at hl1
    exact ⟨e, he, ⟨hne, o, hlw, hadv, hmd⟩, o, hlw, hemEq⟩
  · intro hno
    have hF : BLEAdapter.discoverAdvertisers
        ⟨updateHeap w.heap this { a with scanning := true }, w.registry⟩ this = [] := by
      rcases hF' : BLEAdapter.discoverAdvertisers
          ⟨updateHeap w.heap this { a with scanning := true }, w.registry⟩ this with
        _ | ⟨em, rest⟩
      · rfl
      · exfalso
        have hmem : em ∈ BLEAdapter.discoverAdvertisers
            ⟨updateHeap w.heap this { a with scanning := true }, w.registry⟩ this := by
          rw [hF']
          exact List.mem_cons_self _ _
        obtain ⟨e, he, hne, o, hl1, hadv, hmd, _⟩ :=
          mem_discoverAdvertisers.mp hmem
        refine hno ⟨e, he, hne, o, ?_, hadv, hmd⟩
        rwa [lookupHeap_updateHeap_ne hne] at hl1
    rw [if_pos hF]

/-- C1 witness: in `wScanDemo`, adapter 1 is powered on and not scanning and
its `startScanning` call succeeds. -/
theorem startScanning_discovers_peers_witness :
    lookupHeap wScanDemo.heap 1 = some (mkAdapter "A" false false none) ∧
    (BLEAdapter.StartScanning wScanDemo 1).2.2 = Except.ok () :=
  ⟨rfl, (startScanning_discovers_peers wScanDemo 1 (mkAdapter "A" false false none)
      rfl rfl rfl).1⟩

/-! ### C2 / C3: broadcasts to scanning peers -/

theorem mem_of_lookupHeap {h : List (Nat × Adapter)} {r : Nat} {a : Adapter}
    (hl : lookupHeap h r = some a) : (r, a) ∈ h := by
  induction h with
  | nil => simp [lookupHeap] at hl
  | cons p rest ih =>
    obtain ⟨q, b⟩ := p
    by_cases hq : q = r
    · subst hq
      have hb : b = a := by simpa [lookupHeap] using hl
      subst hb
      exact List.mem_cons_self _ _
    · have hl' : lookupHeap rest r = some a := by simpa [lookupHeap, hq] using hl
      exact List.mem_cons_of_mem _ (ih hl')

theorem scanBroadcast_update_spec (w : World) (this : Nat) (a1 : Adapter)
    (dev : DiscoveredDevice) :
    (∀ e ∈ w.registry, scanningPeer w this e →
      Emission.mk e.2 "deviceDiscovered" [EventArg.device dev] ∈
        BLEAdapter.scanBroadcast
          ⟨updateHeap w.heap this a1, w.registry⟩ this dev) ∧
    (∀ em ∈ BLEAdapter.scanBroadcast
        ⟨updateHeap w.heap this a1, w.registry⟩ this dev,
      ∃ e ∈ w.registry, scanningPeer w this e ∧
        em = Emission.mk e.2 "deviceDiscovered" [EventArg.device dev]) := by
  constructor
  · intro e he hq
    obtain ⟨hne, o, hlw, hs⟩ := hq
    have hl1 : lookupHeap (updateHeap w.heap this a1) e.2 = some o := by
      rw [lookupHeap_updateHeap_ne hne]
      exact hlw
    rw [mem_scanBroadcast]
    exact ⟨e, he, ⟨hne, o, hl1, hs⟩, rfl⟩
  · intro em hem
    obtain ⟨e, he, ⟨hne, o, hl1, hs⟩, hemEq⟩ := mem_scanBroadcast.mp hem
    have hlw : lookupHeap w.heap e.2 = some o := by
      rwa [lookupHeap_updateHeap_ne hne] at hl1
    exact ⟨e, he, ⟨hne, o, hlw, hs⟩, hemEq⟩

/-- C2: for every adapter that is PoweredOn and not already advertising (in
a world satisfying the payload-hygiene invariant, which holds in every
reachable world), `startAdvertising` succeeds, sets the advertising flag,
stores exactly the manufacturer payload carried by the options (so the
stored payload is cleared when the options carry none), emits
`advertisingStarted` locally first, and then delivers a `deviceDiscovered`
event carrying this adapter's identity and payload to every other
registered adapter whose scanning flag is true, and to no one else. -/
theorem startAdvertising_notifies_scanners (w : World) (this : Nat)
    (a : Adapter) (md : Option Payload)
    (ha : lookupHeap w.heap this = some a)
    (hpow : a.state = AdapterState.poweredOn)
    (hna : a.advertising = false)
    (hinv : WorldInv w) :
    (BLEAdapter.StartAdvertising w this md).2.2 = Except.ok () ∧
    lookupHeap (BLEAdapter.StartAdvertising w this md).1.heap this =
      some { a with manufacturerData := md, advertising := true } ∧
    ∃ tail, (BLEAdapter.StartAdvertising w this md).2.1 =
        Emission.mk this "advertisingStarted" [] :: tail ∧
      (∀ e ∈ w.registry, scanningPeer w this e →
        Emission.mk e.2 "deviceDiscovered"
          [EventArg.device ⟨a.adapterId, md⟩] ∈ tail) ∧
      (∀ em ∈ tail, ∃ e ∈ w.registry, scanningPeer w this e ∧
        em = Emission.mk e.2 "deviceDiscovered"
          [EventArg.device ⟨a.adapterId, md⟩]) := by
  have hclean : a.manufacturerData = none :=
    hinv (this, a) (mem_of_lookupHeap ha) hna
  rw [StartAdvertising_eq_of_ok w this a md ha hpow hna hclean]
  exact ⟨rfl, lookupHeap_updateHeap_self ha, _, rfl,
    (scanBroadcast_update_spec w this
      { a with manufacturerData := md, advertising := true }
      ⟨a.adapterId, md⟩).1,
    (scanBroadcast_update_spec w this
      { a with manufacturerData := md, advertising := true }
      ⟨a.adapterId, md⟩).2⟩

/-- C2 witness: in `wAdvDemo`, adapter 1 is powered on, not advertising, the
invariant holds, and its `startAdvertising` call succeeds. -/
theorem startAdvertising_notifies_scanners_witness :
    WorldInv wAdvDemo ∧
    (BLEAdapter.StartAdvertising wAdvDemo 1 (some [1, 2])).2.2 = Except.ok () :=
  ⟨by decide,
   (startAdvertising_notifies_scanners wAdvDemo 1 (mkAdapter "A" false false none)
     (some [1, 2]) rfl rfl rfl (by decide)).1⟩

/-- C3: for every adapter, `updateAdvertisingData` fails with InvalidState
(and changes nothing, emitting nothing) when the adapter is not advertising;
when it is advertising the call replaces the stored payload, emits
`advertisingDataUpdated` locally with the new payload first, and delivers a
`deviceDiscovered` event with the identity and new payload to every other
registered adapter that is scanning and to no adapter that is not. -/
theorem updateAdvertisingData_propagates (w : World) (this : Nat)
    (a : Adapter) (p : Payload)
    (ha : lookupHeap w.heap this = some a) :
    (a.advertising = false →
      BLEAdapter.UpdateAdvertisingData w this p =
        (w, [], Except.error BLEError.invalidState)) ∧
    (a.advertising = true →
      (BLEAdapter.UpdateAdvertisingData w this p).2.2 = Except.ok () ∧
      lookupHeap (BLEAdapter.UpdateAdvertisingData w this p).1.heap this =
        some { a with manufacturerData := some p } ∧
      ∃ tail, (BLEAdapter.UpdateAdvertisingData w this p).2.1 =
          Emission.mk this "advertisingDataUpdated" [EventArg.payload p] :: tail ∧
        (∀ e ∈ w.registry, scanningPeer w this e →
          Emission.mk e.2 "deviceDiscovered"
            [EventArg.device ⟨a.adapterId, some p⟩] ∈ tail) ∧
        (∀ em ∈ tail, ∃ e ∈ w.registry, scanningPeer w this e ∧
          em = Emission.mk e.2 "deviceDiscovered"
            [EventArg.device ⟨a.adapterId, some p⟩])) := by
  constructor
  · intro hna
    exact UpdateAdvertisingData_eq_of_notAdvertising w this a p ha hna
  · intro hadv
    rw [UpdateAdvertisingData_eq_of_ok w this a p ha hadv]
    exact ⟨rfl, lookupHeap_updateHeap_self ha, _, rfl,
      (scanBroadcast_update_spec w this
        { a with manufacturerData := some p } ⟨a.adapterId, some p⟩).1,
      (scanBroadcast_update_spec w this
        { a with manufacturerData := some p } ⟨a.adapterId, some p⟩).2⟩

/-- C3 witness: in `wUpdDemo`, adapter 1 is advertising and its
`updateAdvertisingData` call succeeds. -/
theorem updateAdvertisingData_propagates_witness :
    lookupHeap wUpdDemo.heap 1 = some (mkAdapter "A" true false (some [3])) ∧
    (BLEAdapter.UpdateAdvertisingData wUpdDemo 1 [9]).2.2 = Except.ok () :=
  ⟨rfl, ((updateAdvertisingData_propagates wUpdDemo 1
    (mkAdapter "A" true false (some [3])) [9] rfl).2 rfl).1⟩

/-! ### C4: the power directive does not perform the documented transition -/

/-- C4: evaluating the registry implementation at the claim's input.  In
`wPowerDemo` the only adapter is powered on, advertising and scanning with a
stored payload; `getState("powerOff")` is claimed to force it to PoweredOff,
clear both flags and the payload, and emit `advertisingStopped` /
`scanningStopped` followed by one `stateChange`.  Instead the call leaves
the world completely unchanged — `GetState` hands the directive string
"powerOff" to `HandlePowerStateChange`, whose branches compare against
"poweredOff" / "poweredOn" and therefore never fire — emits a single
`stateChange` event carrying the raw directive string to the registered
adapter, and still reports the state as "poweredOn". -/
theorem getState_powerOff_no_transition :
    BLEAdapter.GetState wPowerDemo 1 (some "powerOff") =
      (wPowerDemo,
       [Emission.mk 1 "stateChange" [EventArg.str "powerOff"]],
       Except.ok "poweredOn") := rfl

/-! ### C5: StopAdvertising performs no validation -/

/-- C5: evaluating `stopAdvertising` on the non-advertising adapter of
`wStopDemo`.  The claim says the call fails with InvalidState and emits
nothing; instead the registry implementation succeeds and emits
`advertisingStopped` (the flag and payload, already clear, stay clear, so
the world is unchanged). -/
theorem stopAdvertising_not_validated :
    BLEAdapter.StopAdvertising wStopDemo 1 =
      (wStopDemo, [Emission.mk 1 "advertisingStopped" []], Except.ok ()) := rfl

/-! ### C6: StartAdvertising failures are atomic -/

/-- C6: for every adapter, `startAdvertising` fails with InvalidState when
the power state is not PoweredOn and with AlreadyActive when the advertising
flag is already set, and on any such failure the entire world — power state,
both flags, stored payload, registry — is unchanged and no event is
emitted. -/
theorem startAdvertising_failure_atomic (w : World) (this : Nat) (a : Adapter)
    (md : Option Payload)
    (ha : lookupHeap w.heap this = some a)
    (h : a.state ≠ AdapterState.poweredOn ∨ a.advertising = true) :
    (BLEAdapter.StartAdvertising w this md).1 = w ∧
    (BLEAdapter.StartAdvertising w this md).2.1 = [] ∧
    (a.state ≠ AdapterState.poweredOn →
      (BLEAdapter.StartAdvertising w this md).2.2 =
        Except.error BLEError.invalidState) ∧
    (a.state = AdapterState.poweredOn → a.advertising = true →
      (BLEAdapter.StartAdvertising w this md).2.2 =
        Except.error BLEError.alreadyActive) := by
  rcases h with hpow | hadv
  · rw [StartAdvertising_eq_of_notPoweredOn w this a md ha hpow]
    exact ⟨rfl, rfl, fun _ => rfl, fun hp _ => absurd hp hpow⟩
  · by_cases hpow : a.state = AdapterState.poweredOn
    · rw [StartAdvertising_eq_of_alreadyActive w this a md ha hpow hadv]
      exact ⟨rfl, rfl, fun hnp => absurd hpow hnp, fun _ _ => rfl⟩
    · rw [StartAdvertising_eq_of_notPoweredOn w this a md ha hpow]
      exact ⟨rfl, rfl, fun _ => rfl, fun hp _ => absurd hp hpow⟩

/-- C6 witness: in `wOffDemo` the adapter is powered off, and its failing
`startAdvertising` call leaves the world unchanged. -/
theorem startAdvertising_failure_atomic_witness :
    lookupHeap wOffDemo.heap 1 =
      some { adapterId := "A", state := AdapterState.poweredOff,
             advertising := false, scanning := false,
             manufacturerData := none, listeners := [] } ∧
    (BLEAdapter.StartAdvertising wOffDemo 1 (some [1])).1 = wOffDemo :=
  ⟨rfl,
   (startAdvertising_failure_atomic wOffDemo 1
     { adapterId := "A", state := AdapterState.poweredOff,
       advertising := false, scanning := false,
       manufacturerData := none, listeners := [] }
     (some [1]) rfl (Or.inl (by decide))).1⟩

/-! ### C7: stateChange registration immediately reports the current state -/

/-- C7: registering a handler for `stateChange` synchronously invokes
exactly that handler, exactly once, with the adapter's current state tag,
before `On` returns; the registration only appends the handler to the
subscriber table, leaving the adapter's state, flags and payload, every
other adapter, and the registry untouched. -/
theorem on_stateChange_immediate (w : World) (this : Nat) (a : Adapter)
    (cb : Nat)
    (ha : lookupHeap w.heap this = some a) :
    (BLEAdapter.On w this "stateChange" cb).2 =
      [(cb, [EventArg.str
        (if a.state = AdapterState.poweredOn then "poweredOn" else "poweredOff")])] ∧
    lookupHeap (BLEAdapter.On w this "stateChange" cb).1.heap this =
      some { a with listeners := pushListener a.listeners "stateChange" cb } ∧
    (BLEAdapter.On w this "stateChange" cb).1.registry = w.registry ∧
    (∀ r, r ≠ this →
      lookupHeap (BLEAdapter.On w this "stateChange" cb).1.heap r =
        lookupHeap w.heap r) := by
  rw [On_eq w this "stateChange" cb a ha]
  exact ⟨by rw [if_pos rfl], lookupHeap_updateHeap_self ha, rfl,
    fun r hr => lookupHeap_updateHeap_ne hr⟩

/-- C7 witness: in `wOffDemo` the powered-off adapter's fresh `stateChange`
handler is immediately called once with "poweredOff". -/
theorem on_stateChange_immediate_witness :
    lookupHeap wOffDemo.heap 1 =
      some { adapterId := "A", state := AdapterState.poweredOff,
             advertising := false, scanning := false,
             manufacturerData := none, listeners := [] } ∧
    (BLEAdapter.On wOffDemo 1 "stateChange" 9).2 =
      [(9, [EventArg.str "poweredOff"])] :=
  ⟨rfl,
   (on_stateChange_immediate wOffDemo 1
     { adapterId := "A", state := AdapterState.poweredOff,
       advertising := false, scanning := false,
       manufacturerData := none, listeners := [] } 9 rfl).1⟩

/-! ### C8: Destroy semantics and idempotence -/

/-- C8: `destroy` succeeds, emits nothing, clears the advertising flag,
scanning flag, payload and all subscriptions while leaving every other
adapter object intact, and removes the registry entry for the adapter's id
exactly when that entry still refers to this object; and it is idempotent:
a second `destroy` returns success, emits nothing, and changes nothing
further. -/
theorem destroy_idempotent (w : World) (this : Nat) (a : Adapter)
    (ha : lookupHeap w.heap this = some a)
    (hid : a.adapterId ≠ "")
    (hreg : (w.registry.map Prod.fst).Nodup) :
    (BLEAdapter.Destroy w this).2.2 = Except.ok () ∧
    (BLEAdapter.Destroy w this).2.1 = [] ∧
    lookupHeap (BLEAdapter.Destroy w this).1.heap this =
      some { a with advertising := false, scanning := false,
                    manufacturerData := none, listeners := [] } ∧
    (∀ r, r ≠ this →
      lookupHeap (BLEAdapter.Destroy w this).1.heap r = lookupHeap w.heap r) ∧
    (lookupReg w.registry a.adapterId = some this →
      lookupReg (BLEAdapter.Destroy w this).1.registry a.adapterId = none) ∧
    (∀ r', lookupReg w.registry a.adapterId = some r' → r' ≠ this →
      (BLEAdapter.Destroy w this).1.registry = w.registry) ∧
    BLEAdapter.Destroy (BLEAdapter.Destroy w this).1 this =
      ((BLEAdapter.Destroy w this).1, [], Except.ok ()) := by
  have hregEq : registryErase (registryErase w.registry a.adapterId this)
      a.adapterId this = registryErase w.registry a.adapterId this := by
    rcases hq : lookupReg w.registry a.adapterId with _ | r'
    · rw [registryErase_of_lookup_none hq, registryErase_of_lookup_none hq]
    · by_cases hr : r' = this
      · subst hr
        exact registryErase_of_lookup_none (lookupReg_registryErase_self hreg hq)
      · rw [registryErase_of_lookup_ne hq hr, registryErase_of_lookup_ne hq hr]
  rw [Destroy_eq w this a ha, if_neg hid]
  have ha1 : lookupHeap (updateHeap w.heap this
      { a with advertising := false, scanning := false,
               manufacturerData := none, listeners := [] }) this =
      some { a with advertising := false, scanning := false,
                    manufacturerData := none, listeners := [] } :=
    lookupHeap_updateHeap_self ha
  refine ⟨rfl, rfl, ha1, fun r hr => lookupHeap_updateHeap_ne hr,
    fun hsome => lookupReg_registryErase_self hreg hsome,
    fun r' hsome hne => registryErase_of_lookup_ne hsome hne, ?_⟩
  rw [Destroy_eq _ this _ ha1]
  dsimp only
  rw [if_neg hid, updateHeap_updateHeap, hregEq]

/-- C8 witness: in `wDestroyDemo`, destroying the advertising-and-scanning
adapter succeeds. -/
theorem destroy_idempotent_witness :
    (wDestroyDemo.registry.map Prod.fst).Nodup ∧
    (BLEAdapter.Destroy wDestroyDemo 1).2.2 = Except.ok () :=
  ⟨by decide,
   (destroy_idempotent wDestroyDemo 1
     { adapterId := "A", state := AdapterState.poweredOn,
       advertising := true, scanning := true, manufacturerData := some [5],
       listeners := [("deviceDiscovered", [4])] }
     rfl (by decide) (by decide)).1⟩

/-! ### C10: Destroy never modifies the power state -/

theorem GetState_none_result (w : World) (this : Nat) (a : Adapter)
    (ha : lookupHeap w.heap this = some a) :
    (BLEAdapter.GetState w this none).2.2 =
      Except.ok (BLEAdapter.stateString a.state) := by
  rw [GetState_none_eq w this a ha]

/-- C10: `destroy` leaves the adapter's power state untouched: the record
still held for the object keeps its state tag and id, and a directive-free
`getState` call after `destroy` returns the same state tag as one
immediately before. -/
theorem destroy_preserves_power_state (w : World) (this : Nat) (a : Adapter)
    (ha : lookupHeap w.heap this = some a) :
    (∃ a', lookupHeap (BLEAdapter.Destroy w this).1.heap this = some a' ∧
      a'.state = a.state ∧ a'.adapterId = a.adapterId) ∧
    (BLEAdapter.GetState (BLEAdapter.Destroy w this).1 this none).2.2 =
      (BLEAdapter.GetState w this none).2.2 := by
  obtain ⟨a', ha', hstate, hids⟩ :
      ∃ a', lookupHeap (BLEAdapter.Destroy w this).1.heap this = some a' ∧
        a'.state = a.state ∧ a'.adapterId = a.adapterId := by
    rw [Destroy_eq w this a ha]
    exact ⟨_, lookupHeap_updateHeap_self ha, rfl, rfl⟩
  refine ⟨⟨a', ha', hstate, hids⟩, ?_⟩
  rw [GetState_none_result _ this a' ha', GetState_none_result w this a ha,
    hstate]

/-- C10 witness: in `wDestroyDemo`, `getState` reports the same tag right
after `destroy` as right before. -/
theorem destroy_preserves_power_state_witness :
    lookupHeap wDestroyDemo.heap 1 =
      some { adapterId := "A", state := AdapterState.poweredOn,
             advertising := true, scanning := true, manufacturerData := some [5],
             listeners := [("deviceDiscovered", [4])] } ∧
    (BLEAdapter.GetState (BLEAdapter.Destroy wDestroyDemo 1).1 1 none).2.2 =
      (BLEAdapter.GetState wDestroyDemo 1 none).2.2 :=
  ⟨rfl,
   (destroy_preserves_power_state wDestroyDemo 1
     { adapterId := "A", state := AdapterState.poweredOn,
       advertising := true, scanning := true, manufacturerData := some [5],
       listeners := [("deviceDiscovered", [4])] } rfl).2⟩

/-! ### C9: the payload-hygiene invariant is preserved by every operation -/

theorem worldInv_updateHeap {w : World} {r : Nat} {a1 : Adapter}
    (hw : WorldInv w) (h1 : payloadClean a1) (reg : List (String × Nat)) :
    WorldInv ⟨updateHeap w.heap r a1, reg⟩ := by
  intro p hp
  obtain ⟨p0, hmem, heq⟩ := List.mem_map.mp hp
  by_cases hq : p0.1 = r
  · rw [if_pos hq] at heq
    rw [← heq]
    exact h1
  · rw [if_neg hq] at heq
    rw [← heq]
    exact hw p0 hmem

theorem payloadClean_powerAdapter (s : String) {a : Adapter}
    (h : payloadClean a) : payloadClean (BLEAdapter.powerAdapter s a) := by
  unfold BLEAdapter.powerAdapter
  by_cases h1 : s = "poweredOff"
  · rw [if_pos h1]
    intro _
    rfl
  · rw [if_neg h1]
    by_cases h2 : s = "poweredOn"
    · rw [if_pos h2]
      intro hadv
      exact h hadv
    · rw [if_neg h2]
      exact h

theorem worldInv_handlePower (s : String) (w : World) (hw : WorldInv w) :
    WorldInv (BLEAdapter.HandlePowerStateChange s w).1 := by
  unfold BLEAdapter.HandlePowerStateChange
  have main : ∀ (entries : List (String × Nat)) (acc : World × List Emission),
      WorldInv acc.1 →
      WorldInv ((entries.foldl
        (fun acc e =>
          match lookupHeap acc.1.heap e.2 with
          | none => acc
          | some a =>
            (⟨updateHeap acc.1.heap e.2 (BLEAdapter.powerAdapter s a),
              acc.1.registry⟩,
             acc.2 ++ BLEAdapter.powerEmissions s e.2)) acc).1) := by
    intro entries
    induction entries with
    | nil => exact fun acc hacc => hacc
    | cons e rest ih =>
      intro acc hacc
      rw [List.foldl_cons]
      apply ih
      rcases hl : lookupHeap acc.1.heap e.2 with _ | a
      · simp only [hl]
        exact hacc
      · simp only [hl]
        exact worldInv_updateHeap hacc
          (payloadClean_powerAdapter s (hacc _ (mem_of_lookupHeap hl)))
          acc.1.registry
  exact main w.registry (w, []) hw

theorem GetState_none_world (w : World) (this : Nat) :
    (BLEAdapter.GetState w this none).1 = w := by
  unfold BLEAdapter.GetState
  rcases hl : lookupHeap w.heap this with _ | a <;> simp only [hl]

theorem GetState_some_world (w : World) (this : Nat) (s : String) :
    (BLEAdapter.GetState w this (some s)).1 = w ∨
    (BLEAdapter.GetState w this (some s)).1 =
      (BLEAdapter.HandlePowerStateChange s w).1 := by
  unfold BLEAdapter.GetState
  dsimp only
  by_cases h1 : s = "error"
  · rw [if_pos h1]
    exact Or.inl rfl
  · rw [if_neg h1]
    by_cases h2 : s = "powerOff" ∨ s = "powerOn"
    · rw [if_pos h2]
      refine Or.inr ?_
      rcases hl : lookupHeap (BLEAdapter.HandlePowerStateChange s w).1.heap this
          with _ | a <;> simp only [hl]
    · rw [if_neg h2]
      refine Or.inl ?_
      rcases hl : lookupHeap w.heap this with _ | a <;> simp only [hl]

theorem construct_heap (w : World) (ref : Nat) (id : Option String) :
    ∃ s, (BLEAdapter.construct w ref id).heap =
      (ref, { adapterId := s, state := AdapterState.poweredOn,
              advertising := false, scanning := false,
              manufacturerData := none, listeners := [] }) :: w.heap :=
  ⟨_, rfl⟩

/-- C9: every operation of the registry-based adapter preserves the
invariant that an adapter whose advertising flag is false holds no
manufacturer payload, for every live adapter object — so a stale payload
from an earlier advertising session is never observable by scanners. -/
theorem payload_invariant_preserved {w w' : World} (h : Step w w')
    (hw : WorldInv w) : WorldInv w' := by
  cases h with
  | construct ref id =>
    obtain ⟨s, hs⟩ := construct_heap w ref id
    intro p hp
    rw [hs] at hp
    rcases List.mem_cons.mp hp with hEq | hMem
    · subst hEq
      exact fun _ => rfl
    · exact hw p hMem
  | onEvent this ev cb =>
    rcases hl : lookupHeap w.heap this with _ | a
    · unfold BLEAdapter.On
      rw [hl]
      exact hw
    · rw [On_eq w this ev cb a hl]
      have hcln : payloadClean
          { a with listeners := pushListener a.listeners ev cb } :=
        hw _ (mem_of_lookupHeap hl)
      exact worldInv_updateHeap hw hcln w.registry
  | getState this arg =>
    rcases arg with _ | s
    · rw [GetState_none_world w this]
      exact hw
    · rcases GetState_some_world w this s with h1 | h1
      · rw [h1]
        exact hw
      · rw [h1]
        exact worldInv_handlePower s w hw
  | startAdvertising this md =>
    rcases hl : lookupHeap w.heap this with _ | a
    · unfold BLEAdapter.StartAdvertising
      rw [hl]
      exact hw
    · by_cases hpow : a.state = AdapterState.poweredOn
      · by_cases hadv : a.advertising = true
        · rw [StartAdvertising_eq_of_alreadyActive w this a md hl hpow hadv]
          exact hw
        · have hna : a.advertising = false := by
            cases hb : a.advertising
            · rfl
            · exact absurd hb hadv
          have hclean := hw _ (mem_of_lookupHeap hl) hna
          rw [StartAdvertising_eq_of_ok w this a md hl hpow hna hclean]
          exact worldInv_updateHeap hw (fun hfalse => Bool.noConfusion hfalse)
            w.registry
      · rw [StartAdvertising_eq_of_notPoweredOn w this a md hl hpow]
        exact hw
  | updateAdvertisingData this p =>
    rcases hl : lookupHeap w.heap this with _ | a
    · unfold BLEAdapter.UpdateAdvertisingData
      rw [hl]
      exact hw
    · by_cases hadv : a.advertising = true
      · rw [UpdateAdvertisingData_eq_of_ok w this a p hl hadv]
        have hcln : payloadClean { a with manufacturerData := some p } :=
          fun hfalse => Bool.noConfusion (hadv.symm.trans hfalse)
        exact worldInv_updateHeap hw hcln w.registry
      · have hna : a.advertising = false := by
          cases hb : a.advertising
          · rfl
          · exact absurd hb hadv
        rw [UpdateAdvertisingData_eq_of_notAdvertising w this a p hl hna]
        exact hw
  | stopAdvertising this =>
    rcases hl : lookupHeap w.heap this with _ | a
    · unfold BLEAdapter.StopAdvertising
      rw [hl]
      exact hw
    · rw [StopAdvertising_eq w this a hl]
      exact worldInv_updateHeap hw (fun _ => rfl) w.registry
  | startScanning this =>
    rcases hl : lookupHeap w.heap this with _ | a
    · unfold BLEAdapter.StartScanning
      rw [hl]
      exact hw
    · by_cases hpow : a.state = AdapterState.poweredOn
      · by_cases hscan : a.scanning = true
        · unfold BLEAdapter.StartScanning
          rw [hl]
          dsimp only
          rw [if_neg (by rw [hpow]; exact fun h => h rfl), if_pos hscan]
          exact hw
        · have hns : a.scanning = false := by
            cases hb : a.scanning
            · rfl
            · exact absurd hb hscan
          rw [StartScanning_eq_of_ok w this a hl hpow hns]
          have hcln : payloadClean { a with scanning := true } :=
            hw _ (mem_of_lookupHeap hl)
          exact worldInv_updateHeap hw hcln w.registry
      · unfold BLEAdapter.StartScanning
        rw [hl]
        dsimp only
        rw [if_pos hpow]
        exact hw
  | stopScanning this =>
    rcases hl : lookupHeap w.heap this with _ | a
    · unfold BLEAdapter.StopScanning
      rw [hl]
      exact hw
    · unfold BLEAdapter.StopScanning
      rw [hl]
      dsimp only
      have hcln : payloadClean { a with scanning := false } :=
        hw _ (mem_of_lookupHeap hl)
      exact worldInv_updateHeap hw hcln w.registry
  | destroy this =>
    rcases hl : lookupHeap w.heap this with _ | a
    · unfold BLEAdapter.Destroy
      rw [hl]
      exact hw
    · rw [Destroy_eq w this a hl]
      exact worldInv_updateHeap hw (fun _ => rfl) _

/-- C9 witness: the invariant holds in `wScanDemo` and is preserved by the
`stopAdvertising` step of adapter 2. -/
theorem payload_invariant_preserved_witness :
    WorldInv wScanDemo ∧ WorldInv (BLEAdapter.StopAdvertising wScanDemo 2).1 :=
  ⟨by decide,
   payload_invariant_preserved (Step.stopAdvertising wScanDemo 2) (by decide)⟩
